import Mathlib

/-!
Verification of the Elliot task-orchestration kernel against its source
(`src/elliot/plan.py`, `src/elliot/agent.py`, `src/elliot/tools.py`).

The Python source is shallowly embedded: module-level mutable state becomes
explicit state passing, `raise`/`except` becomes `Except`, the interactive
prompt and the external subprocess layer become oracle fields of a `World`
record, and the markdown event logger (`log_tool_event`) is recorded as a
list of `LogEvent` values.
-/

namespace Elliot

/-- One call to `log_tool_event` (output.py, lines 37-50): the tool name, the
outcome status string, and the optional human detail.  The rendered params
mapping is formatting only and is not inspected further by the kernel. -/
structure LogEvent where
  tool : String
  status : String
  detail : Option String
deriving DecidableEq, Repr

/-- Result of one `subprocess.run` call, as consumed by the tools. -/
structure ExecResult where
  returncode : Int
  stdout : String
  stderr : String
deriving DecidableEq, Repr

/-- The external environment a tool call runs in:
* `fs` — the observable file system, path to contents;
* `run` — oracle for `subprocess.run` outputs (a pure query: commands run
  without `-i`-style flags write to captured stdout, not to `fs`);
* `runEffect` — the effect a mutating external command (ast-grep
  `--update-all`, git, python) may have on the file system when it is
  actually executed;
* `shlex` — oracle for `shlex.split`; an `Except.error` carries the text of
  the `ValueError` it raises;
* `confirmInput` — the reply `input()` produces at the confirmation prompt,
  `none` meaning `input()` raises `EOFError`. -/
structure World where
  fs : List (String × String)
  run : List String → ExecResult
  runEffect : List String → List (String × String) → List (String × String)
  shlex : String → Except String (List String)
  confirmInput : Option String

/-- Association-list lookup used to model Python `dict` access. -/
def lookupStr {β : Type} (k : String) : List (String × β) → Option β
  | [] => none
  | (k2, v) :: rest => if k = k2 then some v else lookupStr k rest

/-- The whitespace characters Python `str.strip()` removes. -/
def isPySpace (c : Char) : Bool :=
  c = ' ' || c = '\t' || c = '\n' || c = '\r' || c = '\x0b' || c = '\x0c'

/-- Python `str.strip()`: drop leading and trailing whitespace. -/
def pyStrip (s : String) : String :=
  ⟨((s.data.dropWhile isPySpace).reverse.dropWhile isPySpace).reverse⟩

/-- Python `str.lower()` (the identifiers and statuses involved are ASCII). -/
def pyLower (s : String) : String := ⟨s.data.map Char.toLower⟩

/-- Python `str.rstrip()`: drop trailing whitespace. -/
def pyRStrip (s : String) : String :=
  ⟨(s.data.reverse.dropWhile isPySpace).reverse⟩

/-- Replace (or create) the contents of `path`, modelling the
`os.replace(tmp_path, path)` write of `sed_write`. -/
def fsWrite (path content : String) :
    List (String × String) → List (String × String)
  | [] => [(path, content)]
  | (k, v) :: rest =>
      if k = path then (path, content) :: rest
      else (k, v) :: fsWrite path content rest

/-- `confirm_write_action` (tools.py, lines 19-36): prompts for permission.
`EOFError` (input `none`) denies by default; otherwise the stripped,
lowercased response must be `y` or `yes`. -/
def confirm_write_action (input? : Option String) : Bool :=
  match input? with
  | none => false
  | some response =>
      pyLower (pyStrip response) = "y" || pyLower (pyStrip response) = "yes"

/-! ## Side-effecting tools (tools.py)

Each tool is a function of its Python arguments and a `World`; the returned
`ToolOutcome` records the returned string, the `log_tool_event` calls, the
external commands actually executed through `subprocess.run`, the resulting
file system, and — for the one place an exception can escape the tool body —
the propagated exception text.  The defensive `except` branches around
`subprocess.run` itself (the interpreter failing to launch the binary) are
outside the model: the `run` oracle always returns a completed process. -/

structure ToolOutcome where
  output : String
  events : List LogEvent
  execs : List (List String)
  fs : List (String × String)
  raised : Option String := none
deriving Repr

/-- `ast_grep_run_rewrite` (tools.py, lines 106-190): validates the pattern
and rewrite, asks the permission gate, and only then runs
`ast-grep run --pattern .. --rewrite .. --update-all`. -/
def ast_grep_run_rewrite (pattern rewr lang : String) (paths : List String)
    (w : World) : ToolOutcome :=
  if pyStrip pattern = "" then
    { output := "[elliot][tool ast_grep_run_rewrite] no pattern provided.",
      events := [⟨"ast_grep_run_rewrite", "error", some "no pattern provided"⟩],
      execs := [], fs := w.fs }
  else if pyStrip rewr = "" then
    { output := "[elliot][tool ast_grep_run_rewrite] no rewrite provided.",
      events := [⟨"ast_grep_run_rewrite", "error", some "no rewrite provided"⟩],
      execs := [], fs := w.fs }
  else if ¬ confirm_write_action w.confirmInput then
    { output := "[elliot][tool ast_grep_run_rewrite] write permission denied.",
      events := [⟨"ast_grep_run_rewrite", "skipped", some "write permission denied"⟩],
      execs := [], fs := w.fs }
  else
    let command :=
      ["ast-grep", "run", "--pattern", pattern, "--rewrite", rewr, "--update-all"] ++
        (if lang ≠ "" then ["--lang", lang] else []) ++
        (if paths = [] then ["."] else paths)
    let result := w.run command
    let output :=
      (if result.stdout ≠ "" then [pyRStrip result.stdout] else []) ++
        (if result.stderr ≠ "" then [pyRStrip result.stderr] else [])
    if result.returncode ≠ 0 then
      let output2 :=
        if output = [] then
          ["ast-grep exited with return code " ++ toString result.returncode ++ "."]
        else output
      { output := String.intercalate "\n" output2,
        events := [⟨"ast_grep_run_rewrite", "error",
          some ("ast-grep exited with return code `" ++
            toString result.returncode ++ "`")⟩],
        execs := [command], fs := w.runEffect command w.fs }
    else
      { output := String.intercalate "\n" output,
        events := [⟨"ast_grep_run_rewrite", "success",
          some "ast-grep rewrite completed successfully"⟩],
        execs := [command], fs := w.runEffect command w.fs }

/-- `sed_write` (tools.py, lines 334-376): validates, runs the non-mutating
sed preview (`sed command path` without `-i` writes the edited text to the
captured stdout, leaving the file untouched), diffs, and only consults the
permission gate when the diff is non-empty.  The function contains no
`log_tool_event` call.  `difflib.unified_diff` produces an empty diff
exactly when the before/after line sequences coincide, i.e. when the file
contents equal the preview stdout. -/
def sed_write (path command : String) (w : World) : ToolOutcome :=
  if path = "" ∨ lookupStr path w.fs = none then
    { output := "[elliot][sed_write] error: invalid path.",
      events := [], execs := [], fs := w.fs }
  else if command = "" then
    { output := "[elliot][sed_write] error: no sed command provided.",
      events := [], execs := [], fs := w.fs }
  else
    let before := (lookupStr path w.fs).getD ""
    let cmd := ["sed", command, path]
    let result := w.run cmd
    if result.returncode ≠ 0 then
      { output := "[elliot][sed_write] sed failed: " ++
          (if pyStrip result.stderr ≠ "" then pyStrip result.stderr else "unknown error"),
        events := [], execs := [cmd], fs := w.fs }
    else
      let after := result.stdout
      if after = before then
        { output := "[elliot][sed_write] no changes detected.",
          events := [], execs := [cmd], fs := w.fs }
      else if ¬ confirm_write_action w.confirmInput then
        { output := "[elliot][sed_write] edit cancelled.",
          events := [], execs := [cmd], fs := w.fs }
      else
        { output := "[elliot][sed_write] edit applied successfully.",
          events := [], execs := [cmd], fs := fsWrite path after w.fs }

/-- `git_run` (tools.py, lines 379-436): validates, parses the arguments
with `shlex.split` (a `ValueError` is caught and reported), asks the
permission gate, and only then runs `git`. -/
def git_run (args : String) (cwd : Option String) (w : World) : ToolOutcome :=
  if args = "" then
    { output := "[elliot][tool git_run] no arguments provided.",
      events := [⟨"git_run", "error", some "no arguments provided"⟩],
      execs := [], fs := w.fs }
  else
    match w.shlex args with
    | Except.error err =>
        { output := "[elliot][tool git_run] unable to parse arguments: " ++ err,
          events := [⟨"git_run", "error", some ("unable to parse arguments: " ++ err)⟩],
          execs := [], fs := w.fs }
    | Except.ok parsed_args =>
        if ¬ confirm_write_action w.confirmInput then
          { output := "[elliot][tool git_run] write permission denied.",
            events := [⟨"git_run", "skipped", some "write permission denied"⟩],
            execs := [], fs := w.fs }
        else
          let command := ["git"] ++ parsed_args
          let result := w.run command
          if result.returncode ≠ 0 then
            { output :=
                if result.stderr ≠ "" then result.stderr
                else "[elliot][tool git_run] command failed (returncode=" ++
                  toString result.returncode ++ ").",
              events := [⟨"git_run", "error",
                some ("git exited with return code `" ++
                  toString result.returncode ++ "`")⟩],
              execs := [command], fs := w.runEffect command w.fs }
          else
            { output := result.stdout,
              events := [⟨"git_run", "success",
                some "git command completed successfully"⟩],
              execs := [command], fs := w.runEffect command w.fs }

/-- The interpreter path `sys.executable`, opaque to the claims. -/
def sys_executable : String := "python"

/-- `python_run` (tools.py, lines 439-488): validates, asks the permission
gate, and only then runs `sys.executable -c code`. -/
def python_run (code : String) (cwd : Option String) (w : World) : ToolOutcome :=
  if code = "" then
    { output := "[elliot][tool python_run] no code provided.",
      events := [⟨"python_run", "error", some "no code provided"⟩],
      execs := [], fs := w.fs }
  else if ¬ confirm_write_action w.confirmInput then
    { output := "[elliot][tool python_run] execution denied.",
      events := [⟨"python_run", "skipped", some "execution denied"⟩],
      execs := [], fs := w.fs }
  else
    let command := [sys_executable, "-c", code]
    let result := w.run command
    if result.returncode ≠ 0 then
      { output :=
          if result.stderr ≠ "" then result.stderr
          else "[elliot][tool python_run] command failed (returncode=" ++
            toString result.returncode ++ ").",
        events := [⟨"python_run", "error",
          some ("python exited with return code `" ++
            toString result.returncode ++ "`")⟩],
        execs := [command], fs := w.runEffect command w.fs }
    else
      { output := result.stdout,
        events := [⟨"python_run", "success",
          some "python code executed successfully"⟩],
        execs := [command], fs := w.runEffect command w.fs }

/-- `ruff_format` (tools.py, lines 542-599): validates the targets, asks the
permission gate, and only then tokenizes the targets and runs
`ruff format`.  The `shlex.split` call sits outside any `try`, so a
`ValueError` there propagates uncaught (recorded in `raised`); it can only
be reached after the gate has granted permission. -/
def ruff_format (targets : String) (cwd : Option String) (w : World) : ToolOutcome :=
  if pyStrip targets = "" then
    { output := "[elliot][tool ruff_format] no targets provided.",
      events := [⟨"ruff_format", "error", some "no targets provided"⟩],
      execs := [], fs := w.fs }
  else if ¬ confirm_write_action w.confirmInput then
    { output := "[elliot][tool ruff_format] write permission denied.",
      events := [⟨"ruff_format", "skipped", some "write permission denied"⟩],
      execs := [], fs := w.fs }
  else
    match w.shlex targets with
    | Except.error err =>
        { output := "", events := [], execs := [], fs := w.fs, raised := some err }
    | Except.ok split_targets =>
        let command := ["ruff", "format"] ++ split_targets
        let result := w.run command
        let stdout := pyStrip result.stdout
        let stderr := pyStrip result.stderr
        let combined_output :=
          String.intercalate "\n" (([stdout, stderr]).filter (· ≠ ""))
        if result.returncode ≠ 0 then
          { output :=
              if combined_output ≠ "" then combined_output
              else "[elliot][tool ruff_format] command failed (returncode=" ++
                toString result.returncode ++ ").",
            events := [⟨"ruff_format", "error",
              some ("ruff exited with return code `" ++
                toString result.returncode ++ "`")⟩],
            execs := [command], fs := w.runEffect command w.fs }
        else
          { output :=
              if combined_output ≠ "" then combined_output
              else "[elliot][tool ruff_format] format complete.",
            events := [⟨"ruff_format", "success",
              some "ruff format completed successfully"⟩],
            execs := [command], fs := w.runEffect command w.fs }

/-! ## Sub-agent dispatch (agent.py) -/

/-- The executable handles the registry maps names to: the twelve
`@function_tool` functions of tools.py. -/
inductive ToolHandle where
  | ast_grep_run_search
  | ast_grep_run_rewrite
  | list_directory
  | tail
  | read_slice
  | sed_write
  | ask_expert
  | git_run
  | python_run
  | ruff_check
  | ruff_format
  | ask_user
deriving DecidableEq, Repr

/-- The Python function name of a handle (the tool name the SDK dispatches
tool-call requests against). -/
def handleName : ToolHandle → String
  | ToolHandle.ast_grep_run_search => "ast_grep_run_search"
  | ToolHandle.ast_grep_run_rewrite => "ast_grep_run_rewrite"
  | ToolHandle.list_directory => "list_directory"
  | ToolHandle.tail => "tail"
  | ToolHandle.read_slice => "read_slice"
  | ToolHandle.sed_write => "sed_write"
  | ToolHandle.ask_expert => "ask_expert"
  | ToolHandle.git_run => "git_run"
  | ToolHandle.python_run => "python_run"
  | ToolHandle.ruff_check => "ruff_check"
  | ToolHandle.ruff_format => "ruff_format"
  | ToolHandle.ask_user => "ask_user"

/-- `SUBAGENT_TOOLS` (tools.py, lines 667-680), in dict insertion order. -/
def SUBAGENT_TOOLS : List (String × ToolHandle) :=
  [("code_search", ToolHandle.ast_grep_run_search),
   ("code_rewrite", ToolHandle.ast_grep_run_rewrite),
   ("list_dir", ToolHandle.list_directory),
   ("file_tail", ToolHandle.tail),
   ("read_slice", ToolHandle.read_slice),
   ("sed_inplace_edit", ToolHandle.sed_write),
   ("ask_expert", ToolHandle.ask_expert),
   ("git_command", ToolHandle.git_run),
   ("python_run", ToolHandle.python_run),
   ("ruff_check", ToolHandle.ruff_check),
   ("ruff_format", ToolHandle.ruff_format),
   ("ask_user", ToolHandle.ask_user)]

/-- The registry's key list. -/
def SUBAGENT_TOOL_KEYS : List String := SUBAGENT_TOOLS.map (·.1)

/-- Lexicographic code-point comparison on character lists. -/
def charListLe : List Char → List Char → Bool
  | [], _ => true
  | _ :: _, [] => false
  | a :: as, b :: bs =>
      if a.toNat < b.toNat then true
      else if b.toNat < a.toNat then false
      else charListLe as bs

/-- Lexicographic code-point string comparison (Python string `<=`). -/
def strLe (a b : String) : Bool := charListLe a.data b.data

/-- Insertion into a `strLe`-sorted list of strings. -/
def insertSorted (x : String) : List String → List String
  | [] => [x]
  | y :: ys => if strLe x y then x :: y :: ys else y :: insertSorted x ys

/-- Python `sorted` on strings (lexicographic by code point). -/
def sortStrings (l : List String) : List String := l.foldr insertSorted []

/-- `MODEL` (agent.py, line 16): `os.environ` default; the environment
override is irrelevant to the claims. -/
def MODEL : String := "gpt-5"

/-- The `Agent(...)` value constructed at agent.py, lines 33-38. -/
structure AgentDef where
  name : String
  instructions : String
  model : String
  tools : List ToolHandle
deriving DecidableEq, Repr

/-- One reply of the opaque decision engine for a given turn: either the
final text or a request to call a tool by name. -/
inductive EngineStep where
  | finish (text : String)
  | callTool (nm : String)

/-- The decision/dispatch loop: on each turn consult the engine; a
requested tool is looked up among the worker's bound tools only (an
unmatched name dispatches nothing); when the fuel runs out before a
`finish`, fail with the given exhaustion message.  Returns the handles
invoked, in order, alongside the result. -/
def runnerGo (bound : List ToolHandle) (engine : Nat → EngineStep) (msg : String) :
    Nat → Nat → List ToolHandle → List ToolHandle × Except String String
  | _, 0, acc => (acc, Except.error msg)
  | turn, fuel + 1, acc =>
      match engine turn with
      | EngineStep.finish text => (acc, Except.ok text)
      | EngineStep.callTool nm =>
          match bound.find? (fun h => handleName h == nm) with
          | some h => runnerGo bound engine msg (turn + 1) fuel (acc ++ [h])
          | none => runnerGo bound engine msg (turn + 1) fuel acc

/-- Modelled from the spec: the worker's decision loop (spec §4.4 step 3 and
the §6 decision-engine interface `decide(context, allowedCapabilityNames,
turnBudget) -> finalText | capabilityInvocationRequest`).  The repository
delegates this loop to `Runner.run` of the external `agents` SDK, which is
not among the sources; per that SDK's documented contract, a run that
exceeds `max_turns` raises `MaxTurnsExceeded("Max turns (N) exceeded")`
(so a zero or negative budget fails on the first cycle), and tool-call
requests are dispatched only among the agent's own tools. -/
def runnerRun (ag : AgentDef) (task : String)
    (engine : String → Nat → EngineStep) (max_turns : Int) :
    List ToolHandle × Except String String :=
  runnerGo ag.tools (engine task)
    ("Max turns (" ++ toString max_turns ++ ") exceeded") 1 max_turns.toNat []

/-- The observable outcome of one `spawn_subagent` call: the returned final
output or the propagated exception text, the `Agent` value constructed (if
any), the capability handles invoked during the run, and the
`log_tool_event` calls. -/
structure SpawnOutcome where
  result : Except String String
  agent : Option AgentDef
  invoked : List ToolHandle
  events : List LogEvent

/-- `spawn_subagent` (agent.py, lines 19-73): reject unknown tool names
before constructing anything (the `ValueError` escapes before the
`try`/`finally`, so no event is logged); otherwise construct the sub-agent
bound to the handles resolved from the requested names, run it, log exactly
one event, and return the final output (re-raising a runner failure after
The `Agent(name=..., instructions=..., model=MODEL,
tools=[SUBAGENT_TOOLS[tool] for tool in tools])` value built at agent.py,
lines 33-38 is `resolvedAgent` (the comprehension, written as `filterMap`,
resolves every requested name; it is only reached when all are known). -/
def resolvedAgent (name instructions : String) (tools : List String) : AgentDef :=
  { name := name, instructions := instructions, model := MODEL,
    tools := tools.filterMap (fun t => lookupStr t SUBAGENT_TOOLS) }

def spawn_subagent (name instructions task : String) (tools : List String)
    (max_turns : Int) (engine : String → Nat → EngineStep) : SpawnOutcome :=
  let unknown_tools := tools.filter (fun t => (lookupStr t SUBAGENT_TOOLS).isNone)
  if unknown_tools ≠ [] then
    { result := Except.error
        ("Unknown tool(s): " ++ String.intercalate ", " unknown_tools ++
          ". Available tools: " ++
          String.intercalate ", " (sortStrings SUBAGENT_TOOL_KEYS)),
      agent := none, invoked := [], events := [] }
  else
    let subagent : AgentDef := resolvedAgent name instructions tools
    match runnerRun subagent task engine max_turns with
    | (invoked, Except.ok final_output) =>
        { result := Except.ok final_output, agent := some subagent,
          invoked := invoked,
          events := [⟨"spawn_subagent", "success",
            some "sub-agent completed successfully"⟩] }
    | (invoked, Except.error err) =>
        { result := Except.error err, agent := some subagent,
          invoked := invoked,
          events := [⟨"spawn_subagent", "error",
            some ("sub-agent failed: " ++ err)⟩] }

/-! ## Plan tracker (plan.py) -/

/-- One entry of a plan item's history list (plan.py, lines 104-107, 120-122). -/
structure HistoryEntry where
  status : String
  reason : String
deriving DecidableEq, Repr

/-- One element of `CURRENT_PLAN` (plan.py, lines 98-103). -/
structure PlanItem where
  id : Int
  title : String
  status : String
  history : List HistoryEntry
deriving DecidableEq, Repr

/-- The module-level mutable state of plan.py: the ordered `CURRENT_PLAN`
list and the `PLAN_ID_COUNTER = count(1)` iterator, represented by the next
value it will yield. -/
structure PlanState where
  current_plan : List PlanItem
  counter : Int
deriving DecidableEq, Repr

/-- Process-start state: empty plan, counter about to yield 1. -/
def initialPlanState : PlanState := { current_plan := [], counter := 1 }

/-- The argument record of the `plan_manager` tool (plan.py, lines 43-49). -/
structure PlanArgs where
  action : String
  title : Option String := none
  item_id : Option Int := none
  status : Option String := none
  reason : Option String := none
deriving DecidableEq, Repr

/-- Python truthiness of an `Optional[str]`: `None` and `""` are falsy. -/
def pyTruthy : Option String → Bool
  | none => false
  | some v => v ≠ ""

/-- `sorted(PLAN_STATUS_MARKERS.keys())`, as interpolated into the invalid
status message (plan.py, line 86). -/
def sortedStatuses : String := "blocked, completed, in_progress, pending"

/-- The status validation block of plan.py, lines 81-89: a truthy `status`
argument is stripped, lowercased, and must be a key of
`PLAN_STATUS_MARKERS`; otherwise `ValueError`.  A falsy status leaves
`status_value = None`. -/
def statusCheck (status : Option String) : Except String (Option String) :=
  if pyTruthy status then
    let sv := pyLower (pyStrip (status.getD ""))
    if sv = "pending" || sv = "in_progress" || sv = "completed" || sv = "blocked" then
      Except.ok (some sv)
    else
      Except.error ("invalid status \x27" ++ sv ++ "\x27. Valid options: " ++ sortedStatuses)
  else
    Except.ok none

/-- The `update` branch's first-match mutation (plan.py, lines 114-125): the
Python `for`/`break` rewrites the first item whose id matches and `else`
raises; `none` models the `for`-`else` (not found). -/
def updateFirst (target : Int) (f : PlanItem → PlanItem) :
    List PlanItem → Option (List PlanItem)
  | [] => none
  | it :: rest =>
      if it.id = target then some (f it :: rest)
      else (updateFirst target f rest).map (it :: ·)

/-- The `remove` branch's first-match deletion (plan.py, lines 128-135). -/
def removeFirst (target : Int) : List PlanItem → Option (List PlanItem)
  | [] => none
  | it :: rest =>
      if it.id = target then some rest
      else (removeFirst target rest).map (it :: ·)

/-- The body of the `try` block of `plan_manager` (plan.py, lines 76-145),
with the raised `ValueError` messages on the error side.  Because the Python
code mutates module state in place and `except` performs no rollback, the
error constructor carries the state as it stood when the exception was
raised; the proofs below establish (they do not assume) that every raise
happens before any mutation.

`_normalize_id` (plan.py, lines 65-74) raises when `item_id` is `None`; its
string branch is unreachable for the declared `Optional[int]` parameter and
an `int` is returned unchanged. -/
def plan_manager_core (st : PlanState) (a : PlanArgs) :
    Except (String × PlanState) (PlanState × String) :=
  let normalized_action := pyLower (pyStrip a.action)
  if normalized_action = "" then Except.error ("action is required", st)
  else
    match statusCheck a.status with
    | Except.error e => Except.error (e, st)
    | Except.ok status_value =>
      if normalized_action = "reset" then
        Except.ok ({ st with current_plan := [] }, "plan cleared.")
      else if normalized_action = "add" then
        if ¬ pyTruthy a.title then
          Except.error ("title is required to add a plan item", st)
        else
          let new_id := st.counter
          let base_status := status_value.getD "pending"
          let history :=
            if pyTruthy a.reason then
              [HistoryEntry.mk base_status (pyStrip (a.reason.getD ""))]
            else []
          let item : PlanItem :=
            { id := new_id, title := a.title.getD "", status := base_status,
              history := history }
          Except.ok
            ({ current_plan := st.current_plan ++ [item], counter := st.counter + 1 },
             "added plan item #" ++ toString new_id ++ ".")
      else if normalized_action = "update" then
        match a.item_id with
        | none => Except.error ("item_id is required for this action", st)
        | some target_id =>
          if a.reason = none ∨ pyStrip (a.reason.getD "") = "" then
            Except.error ("reason is required when updating a plan item", st)
          else
            let apply := fun (it : PlanItem) =>
              let it1 := if pyTruthy a.title then { it with title := a.title.getD "" } else it
              let it2 := match status_value with
                | some sv => { it1 with status := sv }
                | none => it1
              { it2 with
                  history :=
                    it2.history ++ [HistoryEntry.mk it2.status (pyStrip (a.reason.getD ""))] }
            match updateFirst target_id apply st.current_plan with
            | some newPlan =>
                Except.ok ({ st with current_plan := newPlan },
                  "updated plan item #" ++ toString target_id ++ ".")
            | none =>
                Except.error ("plan item #" ++ toString target_id ++ " not found", st)
      else if normalized_action = "remove" then
        match a.item_id with
        | none => Except.error ("item_id is required for this action", st)
        | some target_id =>
          match removeFirst target_id st.current_plan with
          | some newPlan =>
              Except.ok ({ st with current_plan := newPlan },
                "removed plan item #" ++ toString target_id ++ ".")
          | none =>
              Except.error ("plan item #" ++ toString target_id ++ " not found", st)
      else if normalized_action = "show" then
        Except.ok (st, "displayed current plan.")
      else
        Except.error ("invalid action. use one of: reset, add, update, remove, show.", st)

/-- The `plan_manager` tool (plan.py, lines 42-153): runs the `try` body,
converts a raised error into the `error:`-prefixed response string, and —
mirroring the `finally` block — emits exactly one `log_tool_event` whose
detail is the response message on success and `str(error)` on error. -/
def plan_manager (st : PlanState) (a : PlanArgs) :
    PlanState × String × List LogEvent :=
  match plan_manager_core st a with
  | Except.ok (st2, msg) =>
      (st2, "[elliot][tool plan_manager] " ++ msg,
        [⟨"plan_manager", "success", some msg⟩])
  | Except.error (e, stE) =>
      (stE, "[elliot][tool plan_manager] error: " ++ e,
        [⟨"plan_manager", "error", some e⟩])

/-- The id consumed by a call: a successful `add` draws `next(PLAN_ID_COUNTER)`
(plan.py, line 97); every other call — and every failed call — draws none. -/
def assignedId (st : PlanState) (a : PlanArgs) : Option Int :=
  match plan_manager_core st a with
  | Except.ok _ => if pyLower (pyStrip a.action) = "add" then some st.counter else none
  | Except.error _ => none

/-- Run a sequence of `plan_manager` calls from a starting state, collecting
the final state and the id (if any) each call assigned. -/
def runPlan (st : PlanState) : List PlanArgs → PlanState × List (Option Int)
  | [] => (st, [])
  | a :: rest =>
      ((runPlan (plan_manager st a).1 rest).1,
        assignedId st a :: (runPlan (plan_manager st a).1 rest).2)

/-! ## Concrete instances used by witnesses and counterexamples -/

/-- An environment whose confirmation prompt answers `n`, holding one file
`a.txt`, with a sed oracle that rewrites its contents. -/
def denyWorld : World :=
  { fs := [("a.txt", "x\n")],
    run := fun c =>
      if c = ["sed", "s/x/y/", "a.txt"] then ⟨0, "y\n", ""⟩ else ⟨0, "", ""⟩,
    runEffect := fun _ fs => fs,
    shlex := fun s => Except.ok [s],
    confirmInput := some "n" }

/-- The same environment with no interactive input available (EOF at the
prompt). -/
def eofWorld : World := { denyWorld with confirmInput := none }

/-- A one-item plan (item id 1, empty history), counter at 2. -/
def sampleUpdateState : PlanState :=
  { current_plan :=
      [{ id := 1, title := "write tests", status := "pending", history := [] }],
    counter := 2 }

/-! ## Helper lemmas -/

/-- Every `raise` in the `plan_manager` body happens before any mutation:
an error leaves the tracker state exactly as it was. -/
lemma plan_manager_core_error_state {st : PlanState} {a : PlanArgs} {e : String}
    {st2 : PlanState} (h : plan_manager_core st a = Except.error (e, st2)) :
    st2 = st := by
  simp only [plan_manager_core] at h
  repeat' split at h
  all_goals simp_all

/-- A successful call advances the id counter exactly when it is an `add`. -/
lemma plan_manager_core_ok_counter {st : PlanState} {a : PlanArgs}
    {st2 : PlanState} {msg : String}
    (h : plan_manager_core st a = Except.ok (st2, msg)) :
    (pyLower (pyStrip a.action) = "add" ∧ st2.counter = st.counter + 1) ∨
      (pyLower (pyStrip a.action) ≠ "add" ∧ st2.counter = st.counter) := by
  simp only [plan_manager_core] at h
  repeat' split at h
  all_goals simp_all
  all_goals obtain ⟨h1, -⟩ := h
  all_goals rw [← h1]

/-- The id counter never decreases across a `plan_manager` call. -/
lemma plan_manager_counter_le (st : PlanState) (a : PlanArgs) :
    st.counter ≤ (plan_manager st a).1.counter := by
  cases h : plan_manager_core st a with
  | ok p =>
      obtain ⟨st2, msg⟩ := p
      rcases plan_manager_core_ok_counter h with ⟨-, h2⟩ | ⟨-, h2⟩ <;>
        (simp only [plan_manager, h]; omega)
  | error p =>
      obtain ⟨e, stE⟩ := p
      have hE := plan_manager_core_error_state h
      simp only [plan_manager, h, hE]
      omega

/-- A call assigns an id exactly when it is a successful `add`; the id is
the counter's current value and the counter moves past it. -/
lemma assignedId_eq_some {st : PlanState} {a : PlanArgs} {i : Int}
    (h : assignedId st a = some i) :
    i = st.counter ∧ (plan_manager st a).1.counter = st.counter + 1 := by
  unfold assignedId at h
  cases hc : plan_manager_core st a with
  | error p => rw [hc] at h; cases h
  | ok p =>
      obtain ⟨st2, msg⟩ := p
      rw [hc] at h
      by_cases ha : pyLower (pyStrip a.action) = "add"
      · simp only [ha, if_pos] at h
        injection h with h
        rcases plan_manager_core_ok_counter hc with ⟨-, h2⟩ | ⟨hne, -⟩
        · exact ⟨h.symm, by simp only [plan_manager, hc]; exact h2⟩
        · exact absurd ha hne
      · simp only [ha, if_neg] at h
        simp at h

/-- Ids assigned along any run are a strictly ascending chain, all at or
above the starting counter. -/
lemma runPlan_ids_chain (ops : List PlanArgs) (st : PlanState) :
    List.Chain' (· < ·) ((runPlan st ops).2.filterMap id) ∧
      ∀ i ∈ (runPlan st ops).2.filterMap id, st.counter ≤ i := by
  induction ops generalizing st with
  | nil => simp [runPlan]
  | cons a rest ih =>
      have key := ih ((plan_manager st a).1)
      cases hA : assignedId st a with
      | none =>
          simp only [runPlan, hA, List.filterMap_cons, id_eq]
          exact ⟨key.1,
            fun i hi => le_trans (plan_manager_counter_le st a) (key.2 i hi)⟩
      | some c =>
          obtain ⟨hc, hcount⟩ := assignedId_eq_some hA
          simp only [runPlan, hA, List.filterMap_cons, id_eq]
          constructor
          · rw [List.chain'_cons']
            refine ⟨fun y hy => ?_, key.1⟩
            have hy2 := key.2 y (List.mem_of_mem_head? hy)
            omega
          · intro i hi
            rcases List.mem_cons.mp hi with hi | hi
            · omega
            · have := key.2 i hi
              omega

/-- `updateFirst` rewrites exactly the first item carrying the target id. -/
lemma updateFirst_append {target : Int} {f : PlanItem → PlanItem}
    {pre post : List PlanItem} {it : PlanItem}
    (hpre : ∀ j ∈ pre, j.id ≠ target) (hit : it.id = target) :
    updateFirst target f (pre ++ it :: post) = some (pre ++ f it :: post) := by
  induction pre with
  | nil => simp [updateFirst, hit]
  | cons p ps ih =>
      have hp : p.id ≠ target := hpre p (List.mem_cons_self p ps)
      have ih2 := ih (fun j hj => hpre j (List.mem_cons_of_mem p hj))
      simp only [List.cons_append, updateFirst, if_neg hp, List.append_eq, ih2,
        Option.map_some]
      rfl

/-- Denial branch of `ast_grep_run_rewrite`: validation passed, gate said
no — denial message, `skipped` event, nothing executed, file system kept. -/
lemma ast_grep_run_rewrite_denied (pattern rewr lang : String)
    (paths : List String) (w : World)
    (hp : pyStrip pattern ≠ "") (hr : pyStrip rewr ≠ "")
    (hC : confirm_write_action w.confirmInput = false) :
    ast_grep_run_rewrite pattern rewr lang paths w =
      { output := "[elliot][tool ast_grep_run_rewrite] write permission denied.",
        events := [⟨"ast_grep_run_rewrite", "skipped",
          some "write permission denied"⟩],
        execs := [], fs := w.fs } := by
  simp [ast_grep_run_rewrite, hp, hr, hC]

/-- Denial branch of `git_run`. -/
lemma git_run_denied (args : String) (cwd : Option String) (parsed : List String)
    (w : World) (ha : args ≠ "") (hsh : w.shlex args = Except.ok parsed)
    (hC : confirm_write_action w.confirmInput = false) :
    git_run args cwd w =
      { output := "[elliot][tool git_run] write permission denied.",
        events := [⟨"git_run", "skipped", some "write permission denied"⟩],
        execs := [], fs := w.fs } := by
  simp [git_run, ha, hsh, hC]

/-- Denial branch of `python_run`. -/
lemma python_run_denied (code : String) (cwd : Option String) (w : World)
    (hc : code ≠ "") (hC : confirm_write_action w.confirmInput = false) :
    python_run code cwd w =
      { output := "[elliot][tool python_run] execution denied.",
        events := [⟨"python_run", "skipped", some "execution denied"⟩],
        execs := [], fs := w.fs } := by
  simp [python_run, hc, hC]

/-- Denial branch of `ruff_format`. -/
lemma ruff_format_denied (targets : String) (cwd : Option String) (w : World)
    (ht : pyStrip targets ≠ "")
    (hC : confirm_write_action w.confirmInput = false) :
    ruff_format targets cwd w =
      { output := "[elliot][tool ruff_format] write permission denied.",
        events := [⟨"ruff_format", "skipped", some "write permission denied"⟩],
        execs := [], fs := w.fs } := by
  simp [ruff_format, ht, hC]

/-- Cancellation branch of `sed_write`: the sed preview has already run,
the gate said no — no log event at all, the file is kept. -/
lemma sed_write_cancelled (path command before : String) (w : World)
    (hpath : path ≠ "") (hfile : lookupStr path w.fs = some before)
    (hcmd : command ≠ "")
    (hsed0 : (w.run ["sed", command, path]).returncode = 0)
    (hdiff : (w.run ["sed", command, path]).stdout ≠ before)
    (hC : confirm_write_action w.confirmInput = false) :
    sed_write path command w =
      { output := "[elliot][sed_write] edit cancelled.",
        events := [], execs := [["sed", command, path]], fs := w.fs } := by
  simp [sed_write, hpath, hfile, hcmd, hsed0, hdiff, hC]

/-- Whatever the decision engine does, the runner only ever dispatches
handles drawn from the bound tool list. -/
lemma runnerGo_invoked_subset (bound : List ToolHandle)
    (engine : Nat → EngineStep) (msg : String) :
    ∀ (fuel turn : Nat) (acc : List ToolHandle),
      (∀ x ∈ acc, x ∈ bound) →
      ∀ x ∈ (runnerGo bound engine msg turn fuel acc).1, x ∈ bound := by
  intro fuel
  induction fuel with
  | zero =>
      intro turn acc hacc x hx
      simp only [runnerGo] at hx
      exact hacc x hx
  | succ n ih =>
      intro turn acc hacc x hx
      simp only [runnerGo] at hx
      cases hstep : engine turn with
      | finish t =>
          simp only [hstep] at hx
          exact hacc x hx
      | callTool nm =>
          simp only [hstep] at hx
          cases hfind : bound.find? (fun h => handleName h == nm) with
          | some hd =>
              simp only [hfind] at hx
              refine ih (turn + 1) (acc ++ [hd]) (fun y hy => ?_) x hx
              rcases List.mem_append.mp hy with hy | hy
              · exact hacc y hy
              · rw [List.mem_singleton] at hy
                subst hy
                exact List.mem_of_find?_eq_some hfind
          | none =>
              simp only [hfind] at hx
              exact ih (turn + 1) acc hacc x hx

/-- If the engine never produces a final text, the runner exhausts its fuel
and fails with the exhaustion message. -/
lemma runnerGo_no_finish (bound : List ToolHandle) (engine : Nat → EngineStep)
    (msg : String) (hnf : ∀ n t, engine n ≠ EngineStep.finish t) :
    ∀ (fuel turn : Nat) (acc : List ToolHandle),
      (runnerGo bound engine msg turn fuel acc).2 = Except.error msg := by
  intro fuel
  induction fuel with
  | zero => intro turn acc; simp [runnerGo]
  | succ n ih =>
      intro turn acc
      simp only [runnerGo]
      cases hstep : engine turn with
      | finish t => exact absurd hstep (hnf turn t)
      | callTool nm =>
          simp only [hstep]
          cases hfind : bound.find? (fun h => handleName h == nm) with
          | some hd => simp only [hfind]; exact ih (turn + 1) (acc ++ [hd])
          | none => simp only [hfind]; exact ih (turn + 1) acc

/-- Reduction of `spawn_subagent` when every requested name is known: the
sub-agent is constructed from the resolved handles and the runner's verdict
is passed through. -/
lemma spawn_subagent_known (name instructions task : String)
    (tools : List String) (max_turns : Int) (engine : String → Nat → EngineStep)
    (hempty : tools.filter (fun t => (lookupStr t SUBAGENT_TOOLS).isNone) = []) :
    (spawn_subagent name instructions task tools max_turns engine).agent =
      some (resolvedAgent name instructions tools) ∧
    (spawn_subagent name instructions task tools max_turns engine).invoked =
      (runnerRun (resolvedAgent name instructions tools) task engine max_turns).1 ∧
    (spawn_subagent name instructions task tools max_turns engine).result =
      (runnerRun (resolvedAgent name instructions tools) task engine max_turns).2 ∧
    ∀ err,
      (runnerRun (resolvedAgent name instructions tools) task engine max_turns).2 =
        Except.error err →
      (spawn_subagent name instructions task tools max_turns engine).events =
        [⟨"spawn_subagent", "error", some ("sub-agent failed: " ++ err)⟩] := by
  simp only [spawn_subagent, hempty]
  cases hrun : runnerRun (resolvedAgent name instructions tools) task engine max_turns with
  | mk invoked res =>
      cases res <;> simp

/-! ## Claim theorems -/

/-- **C1** (amended).  When the confirmation prompt returns false on a
validation-passing call: `ast_grep_run_rewrite`, `git_run`, `python_run`
and `ruff_format` return their denial message, never execute the external
command, leave every file unchanged, and log exactly one event whose status
`skipped` is distinct from `error`; `sed_write` likewise returns its
cancellation message and leaves every file unchanged, but it has already
executed the (non-mutating) sed preview command before prompting, and its
denial emits no `log_tool_event` at all. -/
theorem denied_write_actions (w : World)
    (hC : confirm_write_action w.confirmInput = false)
    (pattern rewr lang : String) (paths : List String)
    (hp : pyStrip pattern ≠ "") (hrw : pyStrip rewr ≠ "")
    (args : String) (cwd : Option String) (parsed : List String)
    (ha : args ≠ "") (hsh : w.shlex args = Except.ok parsed)
    (code : String) (hc : code ≠ "")
    (targets : String) (ht : pyStrip targets ≠ "")
    (path command before : String)
    (hpath : path ≠ "") (hfile : lookupStr path w.fs = some before)
    (hcmd : command ≠ "")
    (hsed0 : (w.run ["sed", command, path]).returncode = 0)
    (hdiff : (w.run ["sed", command, path]).stdout ≠ before) :
    ast_grep_run_rewrite pattern rewr lang paths w =
      { output := "[elliot][tool ast_grep_run_rewrite] write permission denied.",
        events := [⟨"ast_grep_run_rewrite", "skipped",
          some "write permission denied"⟩],
        execs := [], fs := w.fs } ∧
    git_run args cwd w =
      { output := "[elliot][tool git_run] write permission denied.",
        events := [⟨"git_run", "skipped", some "write permission denied"⟩],
        execs := [], fs := w.fs } ∧
    python_run code cwd w =
      { output := "[elliot][tool python_run] execution denied.",
        events := [⟨"python_run", "skipped", some "execution denied"⟩],
        execs := [], fs := w.fs } ∧
    ruff_format targets cwd w =
      { output := "[elliot][tool ruff_format] write permission denied.",
        events := [⟨"ruff_format", "skipped", some "write permission denied"⟩],
        execs := [], fs := w.fs } ∧
    sed_write path command w =
      { output := "[elliot][sed_write] edit cancelled.",
        events := [], execs := [["sed", command, path]], fs := w.fs } :=
  ⟨ast_grep_run_rewrite_denied pattern rewr lang paths w hp hrw hC,
   git_run_denied args cwd parsed w ha hsh hC,
   python_run_denied code cwd w hc hC,
   ruff_format_denied targets cwd w ht hC,
   sed_write_cancelled path command before w hpath hfile hcmd hsed0 hdiff hC⟩

/-- **C1** (witness): the amended statement instantiated in `denyWorld`. -/
theorem denied_write_actions_witness :
    git_run "status" none denyWorld =
      { output := "[elliot][tool git_run] write permission denied.",
        events := [⟨"git_run", "skipped", some "write permission denied"⟩],
        execs := [], fs := denyWorld.fs } ∧
    sed_write "a.txt" "s/x/y/" denyWorld =
      { output := "[elliot][sed_write] edit cancelled.",
        events := [], execs := [["sed", "s/x/y/", "a.txt"]], fs := denyWorld.fs } :=
  have h := denied_write_actions denyWorld (by decide) "p" "q" "" [] (by decide)
    (by decide) "status" none ["status"] (by decide) rfl "print(1)" (by decide)
    "." (by decide) "a.txt" "s/x/y/" "x\n" (by decide) (by decide) (by decide)
    (by decide) (by decide)
  ⟨h.2.1, h.2.2.2.2⟩

/-- **C1** (counterexample to the claim as stated): in `denyWorld` the
prompt returns false and `sed_write` reaches its denial, yet the sed
preview command has been executed and the denial is not logged at all —
so it is not the case that, on every denied side-effecting capability, the
underlying external command is never executed and the denial is logged
distinctly from an error outcome. -/
theorem sed_write_denial_unlogged_cex :
    confirm_write_action denyWorld.confirmInput = false ∧
    sed_write "a.txt" "s/x/y/" denyWorld =
      { output := "[elliot][sed_write] edit cancelled.",
        events := [], execs := [["sed", "s/x/y/", "a.txt"]], fs := denyWorld.fs } :=
  ⟨by decide, rfl⟩

/-- **C2**: an EOF at the confirmation prompt yields `False`; permission is
granted only by an explicit `y`/`yes` answer (never implicitly); and a
gated action (here `git_run`) is denied when no interactive response is
available. -/
theorem confirm_eof_denies :
    confirm_write_action none = false ∧
    (∀ inp : Option String, confirm_write_action inp = true →
      ∃ s, inp = some s ∧
        (pyLower (pyStrip s) = "y" ∨ pyLower (pyStrip s) = "yes")) ∧
    (∀ w : World, w.confirmInput = none →
      ∀ (args : String) (cwd : Option String) (parsed : List String),
        args ≠ "" → w.shlex args = Except.ok parsed →
        git_run args cwd w =
          { output := "[elliot][tool git_run] write permission denied.",
            events := [⟨"git_run", "skipped", some "write permission denied"⟩],
            execs := [], fs := w.fs }) := by
  refine ⟨rfl, ?_, ?_⟩
  · intro inp hinp
    cases inp with
    | none => cases hinp
    | some s =>
        refine ⟨s, rfl, ?_⟩
        simpa [confirm_write_action] using hinp
  · intro w hw args cwd parsed ha hsh
    exact git_run_denied args cwd parsed w ha hsh (by rw [hw]; rfl)

/-- **C2** (witness): instantiated in `eofWorld`. -/
theorem confirm_eof_denies_witness :
    git_run "status" none eofWorld =
      { output := "[elliot][tool git_run] write permission denied.",
        events := [⟨"git_run", "skipped", some "write permission denied"⟩],
        execs := [], fs := eofWorld.fs } :=
  confirm_eof_denies.2.2 eofWorld rfl "status" none ["status"] (by decide) rfl

/-- **C3**: a `spawn_subagent` request containing any unknown tool name
fails before any sub-agent is constructed and before any capability is
invoked, with an error listing every unknown name of the request and the
sorted list of all valid capability names. -/
theorem spawn_unknown_tools_rejected (name instructions task : String)
    (tools : List String) (max_turns : Int)
    (engine : String → Nat → EngineStep)
    (h : ∃ t ∈ tools, lookupStr t SUBAGENT_TOOLS = none) :
    spawn_subagent name instructions task tools max_turns engine =
      { result := Except.error
          ("Unknown tool(s): " ++
            String.intercalate ", "
              (tools.filter (fun t => (lookupStr t SUBAGENT_TOOLS).isNone)) ++
            ". Available tools: " ++
            String.intercalate ", " (sortStrings SUBAGENT_TOOL_KEYS)),
        agent := none, invoked := [], events := [] } ∧
    sortStrings SUBAGENT_TOOL_KEYS =
      ["ask_expert", "ask_user", "code_rewrite", "code_search", "file_tail",
       "git_command", "list_dir", "python_run", "read_slice", "ruff_check",
       "ruff_format", "sed_inplace_edit"] := by
  obtain ⟨t, ht, hnone⟩ := h
  have hmem : t ∈ tools.filter (fun t => (lookupStr t SUBAGENT_TOOLS).isNone) :=
    List.mem_filter.mpr ⟨ht, by simp [hnone]⟩
  have hne : tools.filter (fun t => (lookupStr t SUBAGENT_TOOLS).isNone) ≠ [] :=
    List.ne_nil_of_mem hmem
  constructor
  · simp only [spawn_subagent, if_pos hne]
  · decide

/-- **C3** (witness): a request naming two unknown tools is rejected with
both names listed. -/
theorem spawn_unknown_tools_rejected_witness :
    spawn_subagent "w" "i" "t" ["does_not_exist", "also_bad"] 3
        (fun _ _ => EngineStep.finish "") =
      { result := Except.error
          ("Unknown tool(s): does_not_exist, also_bad. Available tools: " ++
            "ask_expert, ask_user, code_rewrite, code_search, file_tail, " ++
            "git_command, list_dir, python_run, read_slice, ruff_check, " ++
            "ruff_format, sed_inplace_edit"),
        agent := none, invoked := [], events := [] } :=
  (spawn_unknown_tools_rejected "w" "i" "t" ["does_not_exist", "also_bad"] 3
    (fun _ _ => EngineStep.finish "")
    ⟨"does_not_exist", by decide, by decide⟩).1

/-- **C4**: across every sequence of `plan_manager` calls from the initial
state — however `add`, `remove`, `reset` and the rest are interleaved — the
ids assigned by successful `add` calls are pairwise strictly increasing in
order of assignment and hence never repeat; in particular an `add` after a
`reset` receives an id strictly greater than every id issued before the
reset. -/
theorem plan_ids_strictly_increasing (ops : List PlanArgs) :
    ((runPlan initialPlanState ops).2.filterMap id).Pairwise (· < ·) ∧
      ((runPlan initialPlanState ops).2.filterMap id).Nodup :=
  have hchain := (runPlan_ids_chain ops initialPlanState).1
  have hpw : ((runPlan initialPlanState ops).2.filterMap id).Pairwise (· < ·) :=
    List.chain'_iff_pairwise.mp hchain
  ⟨hpw, hpw.imp Int.ne_of_lt⟩

/-- **C4** (witness): two adds separated by a reset receive the strictly
increasing ids 1 and 2. -/
theorem plan_ids_strictly_increasing_witness :
    ((runPlan initialPlanState
        [{ action := "add", title := some "a" },
         { action := "reset" },
         { action := "add", title := some "b" }]).2.filterMap id).Pairwise
      (· < ·) :=
  (plan_ids_strictly_increasing
    [{ action := "add", title := some "a" },
     { action := "reset" },
     { action := "add", title := some "b" }]).1

/-- **C5** (counterexample to the claim as stated): an `update` carrying
the non-empty reason `why`, addressed at the existing item 1 of
`sampleUpdateState`, still fails (its status argument is unrecognized) and
appends no history entry — so it is not the case that every update call
with a non-empty reason on an existing item appends exactly one history
entry. -/
theorem update_nonempty_reason_no_history_cex :
    (plan_manager sampleUpdateState
        { action := "update", title := none, item_id := some 1,
          status := some "bogus", reason := some "why" }).2.2 =
      [⟨"plan_manager", "error",
        some ("invalid status \x27bogus\x27. Valid options: " ++ sortedStatuses)⟩] ∧
    (plan_manager sampleUpdateState
        { action := "update", title := none, item_id := some 1,
          status := some "bogus", reason := some "why" }).1 = sampleUpdateState :=
  ⟨rfl, rfl⟩

/-- **C5** (amended): an `update` whose reason is absent or blank after
stripping fails with a validation error and leaves the tracker unchanged,
regardless of the other arguments; an `update` whose reason is non-blank
after stripping, whose status argument passes validation, and which
addresses an existing item appends exactly one history entry to that item,
and the status recorded in that entry equals the item's status after the
update. -/
theorem update_reason_validation_and_history (st : PlanState)
    (title : Option String) (iid : Option Int) (status : Option String)
    (reason : Option String) :
    ((reason = none ∨ pyStrip (reason.getD "") = "") →
      ∃ e, plan_manager st { action := "update", title := title, item_id := iid,
                             status := status, reason := reason } =
        (st, "[elliot][tool plan_manager] error: " ++ e,
          [⟨"plan_manager", "error", some e⟩])) ∧
    (∀ (r : String) (sv : Option String) (target : Int)
        (pre post : List PlanItem) (it : PlanItem),
      reason = some r → pyStrip r ≠ "" →
      statusCheck status = Except.ok sv →
      iid = some target →
      st.current_plan = pre ++ it :: post →
      (∀ j ∈ pre, j.id ≠ target) → it.id = target →
      ∃ it2 : PlanItem,
        plan_manager st { action := "update", title := title, item_id := iid,
                          status := status, reason := reason } =
          ({ st with current_plan := pre ++ it2 :: post },
            "[elliot][tool plan_manager] updated plan item #" ++
              toString target ++ ".",
            [⟨"plan_manager", "success",
              some ("updated plan item #" ++ toString target ++ ".")⟩]) ∧
        it2.history = it.history ++ [⟨it2.status, pyStrip r⟩]) := by
  have hn : pyLower (pyStrip "update") = "update" := by decide
  constructor
  · intro hr
    cases hs : statusCheck status with
    | error e =>
        refine ⟨e, ?_⟩
        simp [plan_manager, plan_manager_core, hn, hs]
    | ok sv =>
        cases hi : iid with
        | none =>
            refine ⟨"item_id is required for this action", ?_⟩
            simp [plan_manager, plan_manager_core, hn, hs]
        | some target =>
            refine ⟨"reason is required when updating a plan item", ?_⟩
            simp [plan_manager, plan_manager_core, hn, hs, hr]
  · intro r sv target pre post it hrr hr hs hi hplan hpre hit
    subst hrr
    subst hi
    rcases sv with _ | s <;> by_cases htl : pyTruthy title <;>
      simp [plan_manager, plan_manager_core, hn, hs, hplan, hr, htl,
        updateFirst_append hpre hit] <;>
      exact ⟨_, ⟨rfl, rfl⟩, rfl⟩

/-- **C5** (witness): the amended statement instantiated on
`sampleUpdateState`: a blank reason fails, and a well-formed update of item
1 appends exactly the expected history entry. -/
theorem update_reason_validation_and_history_witness :
    (∃ e, plan_manager sampleUpdateState
        { action := "update", title := none, item_id := some 1,
          status := some "in_progress", reason := some " " } =
      (sampleUpdateState, "[elliot][tool plan_manager] error: " ++ e,
        [⟨"plan_manager", "error", some e⟩])) ∧
    (∃ it2 : PlanItem,
      plan_manager sampleUpdateState
          { action := "update", title := none, item_id := some 1,
            status := some "in_progress", reason := some "starting" } =
        ({ sampleUpdateState with
            current_plan := [] ++ it2 :: [] },
          "[elliot][tool plan_manager] updated plan item #" ++
            toString (1 : Int) ++ ".",
          [⟨"plan_manager", "success",
            some ("updated plan item #" ++ toString (1 : Int) ++ ".")⟩]) ∧
      it2.history =
        ({ id := 1, title := "write tests", status := "pending",
           history := [] } : PlanItem).history ++ [⟨it2.status, pyStrip "starting"⟩]) :=
  ⟨(update_reason_validation_and_history sampleUpdateState none (some 1)
      (some "in_progress") (some " ")).1 (Or.inr (by decide)),
   (update_reason_validation_and_history sampleUpdateState none (some 1)
      (some "in_progress") (some "starting")).2 "starting" (some "in_progress") 1
      [] [] ⟨1, "write tests", "pending", []⟩ rfl (by decide) rfl rfl rfl
      (by intro j hj; cases hj) rfl⟩

/-- **C6**: a sub-agent spawned from known capability names is bound to
exactly the handles resolved from its requested names, and every capability
invocation its run performs draws from that resolved subset — containment
holds by construction of the dispatch loop. -/
theorem spawn_capability_containment (name instructions task : String)
    (tools : List String) (max_turns : Int)
    (engine : String → Nat → EngineStep)
    (h : ∀ t ∈ tools, (lookupStr t SUBAGENT_TOOLS).isSome) :
    ∃ ag : AgentDef,
      (spawn_subagent name instructions task tools max_turns engine).agent =
        some ag ∧
      ag.tools = tools.filterMap (fun t => lookupStr t SUBAGENT_TOOLS) ∧
      ∀ hnd ∈ (spawn_subagent name instructions task tools max_turns engine).invoked,
        hnd ∈ ag.tools := by
  have hempty : tools.filter (fun t => (lookupStr t SUBAGENT_TOOLS).isNone) = [] := by
    rw [List.filter_eq_nil_iff]
    intro t ht
    have h2 := h t ht
    cases hx : lookupStr t SUBAGENT_TOOLS with
    | none => rw [hx] at h2; simp at h2
    | some v => simp
  obtain ⟨hag, hinv, -, -⟩ :=
    spawn_subagent_known name instructions task tools max_turns engine hempty
  refine ⟨resolvedAgent name instructions tools, hag, rfl, ?_⟩
  intro hnd hmem
  rw [hinv] at hmem
  simp only [runnerRun] at hmem
  exact runnerGo_invoked_subset _ (engine task) _ max_turns.toNat 1 []
    (by intro y hy; cases hy) hnd hmem

/-- **C6** (witness): a sub-agent spawned with `code_search` only. -/
theorem spawn_capability_containment_witness :
    ∃ ag : AgentDef,
      (spawn_subagent "w" "i" "t" ["code_search"] 3
          (fun _ _ => EngineStep.finish "done")).agent = some ag ∧
      ag.tools = (["code_search"].filterMap (fun t => lookupStr t SUBAGENT_TOOLS)) ∧
      ∀ hnd ∈ (spawn_subagent "w" "i" "t" ["code_search"] 3
          (fun _ _ => EngineStep.finish "done")).invoked,
        hnd ∈ ag.tools :=
  spawn_capability_containment "w" "i" "t" ["code_search"] 3
    (fun _ _ => EngineStep.finish "done") (by decide)

/-- **C7** (counterexample to the claim as stated): a worker whose engine
never finishes, spawned with budget 3, makes `spawn_subagent` propagate the
SDK's `MaxTurnsExceeded` failure and log an `error` event — exhaustion is
not returned as a normal partial-output outcome. -/
theorem turn_exhaustion_is_error_cex :
    (spawn_subagent "w" "i" "t" [] 3
        (fun _ _ => EngineStep.callTool "x")).result =
      Except.error "Max turns (3) exceeded" ∧
    (spawn_subagent "w" "i" "t" [] 3
        (fun _ _ => EngineStep.callTool "x")).events =
      [⟨"spawn_subagent", "error",
        some "sub-agent failed: Max turns (3) exceeded"⟩] :=
  ⟨rfl, rfl⟩

/-- **C7** (amended): when a spawned worker exhausts its turn budget before
completing, `spawn_subagent` does not return partial output as a normal
outcome: the run fails with the `MaxTurnsExceeded` message, the logged
event carries status `error` with detail `sub-agent failed: ...`
(distinguishable from the completion detail), and the failure is
propagated to the caller. -/
theorem turn_exhaustion_propagates_error (name instructions task : String)
    (tools : List String) (max_turns : Int)
    (engine : String → Nat → EngineStep)
    (hknown : tools.filter (fun t => (lookupStr t SUBAGENT_TOOLS).isNone) = [])
    (hnf : ∀ (n : Nat) (t : String), engine task n ≠ EngineStep.finish t) :
    (spawn_subagent name instructions task tools max_turns engine).result =
      Except.error ("Max turns (" ++ toString max_turns ++ ") exceeded") ∧
    (spawn_subagent name instructions task tools max_turns engine).events =
      [⟨"spawn_subagent", "error",
        some ("sub-agent failed: Max turns (" ++ toString max_turns ++
          ") exceeded")⟩] := by
  obtain ⟨-, -, hres, hev⟩ :=
    spawn_subagent_known name instructions task tools max_turns engine hknown
  have herr : (runnerRun (resolvedAgent name instructions tools)
      task engine max_turns).2 =
      Except.error ("Max turns (" ++ toString max_turns ++ ") exceeded") := by
    simp only [runnerRun]
    exact runnerGo_no_finish _ (engine task) _ hnf max_turns.toNat 1 []
  exact ⟨by rw [hres, herr], hev _ herr⟩

/-- **C7** (witness): the amended statement at budget 3 with a
never-finishing engine. -/
theorem turn_exhaustion_propagates_error_witness :
    (spawn_subagent "w" "i" "t" ["git_command"] 3
        (fun _ _ => EngineStep.callTool "x")).result =
      Except.error ("Max turns (" ++ toString (3 : Int) ++ ") exceeded") :=
  (turn_exhaustion_propagates_error "w" "i" "t" ["git_command"] 3
    (fun _ _ => EngineStep.callTool "x") (by decide)
    (fun n t h => EngineStep.noConfusion h)).1

/-- **C8**: `spawn_subagent` performs no validation of `max_turns`: called
with a zero budget, it still constructs the sub-agent and runs it, and the
run fails with the SDK's `MaxTurnsExceeded` — there is no spawn-time
`ValidationError` for a non-positive budget.  The claim matches the spec's
stated intent (§5 and the §9 note that the unchecked turn budget of the
source is not intentional); the code lacks the check. -/
theorem spawn_zero_budget_not_validated :
    (spawn_subagent "w" "i" "t" [] 0
        (fun _ _ => EngineStep.callTool "x")).agent =
      some { name := "w", instructions := "i", model := MODEL, tools := [] } ∧
    (spawn_subagent "w" "i" "t" [] 0
        (fun _ _ => EngineStep.callTool "x")).result =
      Except.error "Max turns (0) exceeded" ∧
    (spawn_subagent "w" "i" "t" [] (-2)
        (fun _ _ => EngineStep.callTool "x")).result =
      Except.error "Max turns (-2) exceeded" :=
  ⟨rfl, rfl, rfl⟩

/-- **C9**: `plan_manager` is total: every call returns a response string
and emits exactly one structured log event; a failing call's response
begins with the error prefix, a successful call's response with the tool
prefix. -/
theorem plan_manager_total_and_logged (st : PlanState) (a : PlanArgs) :
    (plan_manager st a).2.2.length = 1 ∧
      ∀ ev ∈ (plan_manager st a).2.2,
        ev.tool = "plan_manager" ∧
          ((ev.status = "success" ∧
              ∃ rest, (plan_manager st a).2.1 =
                "[elliot][tool plan_manager] " ++ rest) ∨
            (ev.status = "error" ∧
              ∃ rest, (plan_manager st a).2.1 =
                "[elliot][tool plan_manager] error:" ++ rest)) := by
  cases h : plan_manager_core st a with
  | ok p =>
      obtain ⟨st2, msg⟩ := p
      simp only [plan_manager, h]
      refine ⟨rfl, ?_⟩
      intro ev hev
      rw [List.mem_singleton] at hev
      subst hev
      exact ⟨rfl, Or.inl ⟨rfl, msg, rfl⟩⟩
  | error p =>
      obtain ⟨e, stE⟩ := p
      simp only [plan_manager, h]
      refine ⟨rfl, ?_⟩
      intro ev hev
      rw [List.mem_singleton] at hev
      subst hev
      exact ⟨rfl, Or.inr ⟨rfl, " " ++ e, rfl⟩⟩

/-- **C9** (witness): instantiated on a `show` call and on an invalid
action. -/
theorem plan_manager_total_and_logged_witness :
    (plan_manager initialPlanState { action := "show" }).2.2.length = 1 ∧
    (plan_manager initialPlanState { action := "bogus" }).2.2.length = 1 :=
  ⟨(plan_manager_total_and_logged initialPlanState { action := "show" }).1,
   (plan_manager_total_and_logged initialPlanState { action := "bogus" }).1⟩

/-- **C10**: whenever `plan_manager` reports an error outcome, the tracker
state — items and id counter alike — is exactly what it was before the
call. -/
theorem plan_manager_error_preserves_state (st : PlanState) (a : PlanArgs)
    (h : ∃ d, (plan_manager st a).2.2 = [⟨"plan_manager", "error", d⟩]) :
    (plan_manager st a).1 = st := by
  obtain ⟨d, hd⟩ := h
  cases hc : plan_manager_core st a with
  | ok p =>
      obtain ⟨st2, msg⟩ := p
      simp only [plan_manager, hc] at hd
      simp at hd
  | error p =>
      obtain ⟨e, stE⟩ := p
      simp only [plan_manager, hc]
      exact plan_manager_core_error_state hc

/-- **C10** (witness): a failed `add` (missing title) from a state with a
pending item consumes no id and leaves the plan unchanged. -/
theorem plan_manager_error_preserves_state_witness :
    (plan_manager sampleUpdateState { action := "add" }).1 = sampleUpdateState :=
  plan_manager_error_preserves_state sampleUpdateState { action := "add" }
    ⟨some "title is required to add a plan item", rfl⟩

end Elliot
